import Mathlib

/-!
Verification of the command-catalog retrieval engine (`database.js` /
`stopwords.js` of the command-bd-mcp repository).

Modelling conventions for this shallow embedding:

* JavaScript numbers used in the similarity math are modelled by exact
  rationals (`ℚ`); the IEEE-754 value `NaN` is modelled by `Option ℚ`
  with `none` standing for NaN.  In the exact-rational model no rounding
  or overflow occurs, so the only NaN source reachable in
  `cosineSimilarity` is the division `0 / 0`, which is exactly IEEE
  behaviour; a denominator of exactly `0` forces a numerator of exactly
  `0` here (see `ratSqrt_eq_zero_iff`-style reasoning in the proofs), so
  modelling division by zero as NaN is faithful on every reachable input.
* `Math.sqrt` is modelled by `ratSqrt`, which agrees with the float
  square root on perfect squares (in particular `ratSqrt 0 = 0`, the only
  value the theorems depend on).
* For the byte-level BLOB codec (`embeddingToBlob` / `blobToEmbedding`)
  a vector component is modelled by its IEEE-754 binary64 *bit pattern*
  (a `Nat < 2^64`); `writeDoubleLE`/`readDoubleLE` are exactly the
  little-endian byte (de)serialisation of that pattern, so bit-for-bit
  equality of float values is equality of patterns.  Node's `RangeError`
  on a short read is modelled by `Except.error`.
* The SQLite tables are modelled as in-memory lists.  `command_embeddings`
  has `command_id` as INTEGER PRIMARY KEY, i.e. it is a clustered B-tree
  ordered by `command_id`; accordingly the model keeps the embeddings
  list sorted by key (predicate `EmbKeysSorted`) and the
  `WHERE command_id IN (...)` scan returns rows in ascending key order,
  which is what SQLite does for an IN constraint on the primary key.
  SQLite accepts an empty `IN ()` list and returns no rows.
* The Ollama embedding provider (`getEmbedding`) is an external network
  call; it is modelled as a function argument
  `provider : String → Except String (List ℚ)` (the query embedding of
  `searchCommands` is passed in already materialised).  The FTS5 MATCH
  query is likewise modelled as an oracle
  `fts : List String → Except String (List Nat)`.
* JavaScript truthiness on strings (`!command`, `updates.command || ...`)
  is modelled by `isTruthyS` (empty string and absence are falsy).
* `JSON.stringify` of the `arguments` / `related_commands` columns is
  kept abstract: the model stores the serialised string directly.
-/

/-! ### Similarity math (`cosineSimilarity`, database.js lines 56–72) -/

/-- Dot-product loop of `cosineSimilarity` (`dotProduct += vecA[i] * vecB[i]`). -/
def dotProd : List ℚ → List ℚ → ℚ
  | x :: xs, y :: ys => x * y + dotProd xs ys
  | _, _ => 0

/-- Model of `Math.sqrt`; exact on perfect squares and `ratSqrt 0 = 0`. -/
def ratSqrt (q : ℚ) : ℚ :=
  (Int.sqrt q.num : ℚ) / (Nat.sqrt q.den : ℚ)

/-- Float division with NaN: division by zero yields NaN (`none`).  In the
exact model the denominator is zero only when the numerator is, so this is
precisely the IEEE `0 / 0 = NaN` case. -/
def fpDiv (x y : ℚ) : Option ℚ :=
  if y = 0 then none else some (x / y)

/-- `cosineSimilarity(vecA, vecB)`: throws on length mismatch, otherwise
`dot / (sqrt(normA) * sqrt(normB))` where `normA`/`normB` are the sums of
squares accumulated by the same loop as the dot product. -/
def cosineSimilarity (vecA vecB : List ℚ) : Except String (Option ℚ) :=
  if vecA.length ≠ vecB.length then
    .error "Vectors must have same length"
  else
    .ok (fpDiv (dotProd vecA vecB) (ratSqrt (dotProd vecA vecA) * ratSqrt (dotProd vecB vecB)))

/-! ### BLOB codec (`embeddingToBlob` / `blobToEmbedding`, lines 79–98) -/

/-- The eight little-endian bytes written by `buffer.writeDoubleLE(value, 8*i)`
for the binary64 bit pattern `w`. -/
def writeDoubleLE (w : Nat) : List Nat :=
  [w % 256, w / 256 % 256, w / 65536 % 256, w / 16777216 % 256,
   w / 4294967296 % 256, w / 1099511627776 % 256,
   w / 281474976710656 % 256, w / 72057594037927936 % 256]

/-- `embeddingToBlob`: concatenate the 8-byte encodings of the components. -/
def embeddingToBlob : List Nat → List Nat
  | [] => []
  | w :: ws => writeDoubleLE w ++ embeddingToBlob ws

/-- `blobToEmbedding`: read 8-byte little-endian chunks; a trailing chunk
shorter than 8 bytes makes Node's `readDoubleLE` raise a `RangeError`. -/
def blobToEmbedding : List Nat → Except String (List Nat)
  | [] => .ok []
  | b0 :: b1 :: b2 :: b3 :: b4 :: b5 :: b6 :: b7 :: rest =>
    (match blobToEmbedding rest with
     | .ok v => .ok ((b0 + 256 * b1 + 65536 * b2 + 16777216 * b3 +
         4294967296 * b4 + 1099511627776 * b5 + 281474976710656 * b6 +
         72057594037927936 * b7) :: v)
     | .error e => .error e)
  | _ => .error "RangeError: Attempt to access memory outside buffer bounds"

/-- A binary64 bit pattern denotes a finite float iff its exponent field is
not all ones. -/
def float64IsFinite (w : Nat) : Bool :=
  decide (w / 2 ^ 52 % 2 ^ 11 ≠ 2047)

/-! ### Keyword extractor (`stopwords.js`) -/

/-- Spanish stopword list (`STOPWORDS_ES`). -/
def STOPWORDS_ES : List String :=
  ["el", "la", "los", "las", "un", "una", "unos", "unas",
   "a", "ante", "bajo", "con", "contra", "de", "desde", "durante", "en", "entre",
   "hacia", "hasta", "mediante", "para", "por", "según", "sin", "sobre", "tras",
   "y", "e", "o", "u", "pero", "sino", "que", "si",
   "yo", "tú", "él", "ella", "nosotros", "vosotros", "ellos", "ellas",
   "me", "te", "se", "nos", "os", "lo", "le", "les",
   "mi", "tu", "su", "nuestro", "vuestro",
   "es", "está", "son", "están", "ser", "estar", "hay", "haber",
   "cómo", "como", "qué", "cuál", "cuáles", "dónde", "donde",
   "del", "al", "ver", "hacer", "tiene", "tengo", "puede", "puedo"]

/-- English stopword list (`STOPWORDS_EN`). -/
def STOPWORDS_EN : List String :=
  ["a", "an", "the",
   "in", "on", "at", "to", "for", "with", "from", "by", "about", "into",
   "through", "during", "before", "after", "above", "below", "between", "under",
   "and", "or", "but", "if", "because", "as", "until", "while",
   "i", "you", "he", "she", "it", "we", "they", "me", "him", "her", "us", "them",
   "my", "your", "his", "its", "our", "their",
   "is", "are", "was", "were", "be", "been", "being", "have", "has", "had",
   "do", "does", "did", "can", "could", "will", "would", "should",
   "what", "where", "when", "why", "how", "which", "who",
   "this", "that", "these", "those", "there", "here", "of", "up", "down", "out",
   "show", "get", "see", "view"]

/-- Combined stopword set (`STOPWORDS = ES ∪ EN`); list membership models
`Set.has`. -/
def STOPWORDS : List String := STOPWORDS_ES ++ STOPWORDS_EN

/-- Characters stripped by the normalisation regex
`/[¿?¡!.,;:()[\]\x7b\x7d"'`]/g` (braces, double quote, apostrophe and
backtick are given by code point). -/
def punctuationChars : List Char :=
  "¿?¡!.,;:()[]".toList ++
    [Char.ofNat 123, Char.ofNat 125, Char.ofNat 34, Char.ofNat 39, Char.ofNat 96]

/-- Keep the first occurrence of each word (`[...new Set(words)]`). -/
def dedupFirst : List String → List String → List String
  | _, [] => []
  | seen, w :: ws =>
    if seen.contains w then dedupFirst seen ws
    else w :: dedupFirst (w :: seen) ws

/-- Replace a punctuation character by a space (`.replace(regex, ' ')`). -/
def normalizeChar (c : Char) : Char :=
  if punctuationChars.contains c then ' ' else c

/-- Split a character sequence at whitespace (`.split(/\s+/)`); `cur` holds
the current word, reversed.  Splitting at every whitespace character instead
of at runs only adds empty fragments, which the length filter of
`extractKeywords` removes for every positive `minLength`. -/
def splitWords (cur : List Char) : List Char → List String
  | [] => [cur.reverse.asString]
  | c :: cs =>
    if c.isWhitespace then cur.reverse.asString :: splitWords [] cs
    else splitWords (c :: cur) cs

/-- `extractKeywords(text, minLength)`: lowercase, replace punctuation by
spaces, split on whitespace, drop short words and stopwords, dedupe keeping
first occurrences.  The empty string is falsy, so it yields `[]` at once. -/
def extractKeywords (text : String) (minLength : Nat) : List String :=
  if text.isEmpty then []
  else
    let chars := (text.data.map Char.toLower).map normalizeChar
    let words := (splitWords [] chars).filter
      (fun w => minLength ≤ w.length && !STOPWORDS.contains w)
    dedupFirst [] words

/-! ### Data model (`schema.sql`) -/

/-- One row of `checkpoint_commands`.  `description` and the other TEXT
columns without NOT NULL are `Option String` (`none` = SQL NULL); the
JSON-serialised columns `arguments` / `related_commands` are kept as the
serialised strings. -/
structure CommandRow where
  id : Nat
  command : String
  description : Option String
  argumentsJson : String
  category : String
  version : Option String
  keywords : Option String
  mode : Option String
  type : Option String
  device : Option String
  executableMcp : Bool
  impact : Option String
  relatedJson : String
  deprecated : Bool
deriving Repr, DecidableEq

/-- The database state: the `checkpoint_commands` table, the
`command_embeddings` table (clustered by its `command_id` primary key, so
the model keeps it sorted by key — see `EmbKeysSorted`), and the
AUTOINCREMENT counter. -/
structure Db where
  commands : List CommandRow
  embeddings : List (Nat × List ℚ)
  nextId : Nat
deriving Repr, DecidableEq

/-- Well-formedness of the embeddings table: the clustered primary-key
B-tree stores rows in strictly ascending `command_id` order. -/
def EmbKeysSorted (db : Db) : Prop :=
  db.embeddings.Pairwise (fun a b => a.1 < b.1)

/-- Point lookup in the embedding store (`SELECT embedding ... WHERE
command_id = ?`, decoded). -/
def embLookup (db : Db) (id : Nat) : Option (List ℚ) :=
  (db.embeddings.find? (fun e => e.1 == id)).map (fun e => e.2)

/-- B-tree insert into `command_embeddings` (`INSERT INTO command_embeddings`);
only called with a key not already present. -/
def insertEmb (id : Nat) (v : List ℚ) : List (Nat × List ℚ) → List (Nat × List ℚ)
  | [] => [(id, v)]
  | e :: es => if id < e.1 then (id, v) :: e :: es else e :: insertEmb id v es

/-- `UPDATE command_embeddings SET embedding = ? WHERE command_id = ?`:
replaces the vector where the key matches, no-op otherwise. -/
def updateEmb (id : Nat) (v : List ℚ) (l : List (Nat × List ℚ)) : List (Nat × List ℚ) :=
  l.map (fun e => if e.1 == id then (e.1, v) else e)

/-- `command + " " + (description || "")`, trimmed — the text embedded for a
record. -/
def textToEmbed (command : String) (description : Option String) : String :=
  ((((command ++ " " ++ description.getD "").data.dropWhile Char.isWhitespace).reverse.dropWhile
      Char.isWhitespace).reverse).asString

/-! ### `addCommand` (database.js lines 106–194) -/

/-- The request payload of `addCommand`; JS truthiness makes an absent
`command`/`category` indistinguishable from the empty string, so those two
are plain strings. -/
structure CommandData where
  command : String
  description : Option String
  argumentsJson : String
  category : String
  version : Option String
  keywords : Option String
  mode : Option String
  type : Option String
  device : Option String
  executableMcp : Bool
  impact : Option String
  relatedJson : String
deriving Repr, DecidableEq

/-- The result object `addCommand` returns (it reports validation failures
and duplicates as values, not exceptions). -/
inductive AddOutcome where
  | validationError : AddOutcome
  | duplicate : Nat → AddOutcome
  | ok : Nat → AddOutcome
deriving Repr, DecidableEq

/-- The freshly inserted row: `deprecated` defaults to 0. -/
def mkRow (id : Nat) (d : CommandData) : CommandRow :=
  ⟨id, d.command, d.description, d.argumentsJson, d.category, d.version, d.keywords,
   d.mode, d.type, d.device, d.executableMcp, d.impact, d.relatedJson, false⟩

/-- `addCommand(db, commandData)`: required-field check, duplicate check on
(command, category), INSERT, then synchronous embedding generation and
INSERT into `command_embeddings`.  A provider failure propagates as a thrown
error *after* the record insert, which is not rolled back — hence the state
is returned alongside the `Except`. -/
def addCommand (db : Db) (provider : String → Except String (List ℚ))
    (d : CommandData) : Db × Except String AddOutcome :=
  if d.command.isEmpty || d.category.isEmpty then
    (db, .ok .validationError)
  else
    match db.commands.find? (fun c => c.command == d.command && c.category == d.category) with
    | some existing => (db, .ok (.duplicate existing.id))
    | none =>
      let id := db.nextId
      let db1 : Db := ⟨db.commands ++ [mkRow id d], db.embeddings, id + 1⟩
      match provider (textToEmbed d.command d.description) with
      | .error e => (db1, .error e)
      | .ok v => (⟨db1.commands, insertEmb id v db1.embeddings, db1.nextId⟩, .ok (.ok id))

/-! ### `updateCommand` (lines 203–252) -/

/-- The partial-update payload: one optional slot per mutable column;
`none` = key absent from the `updates` object. -/
structure CommandUpdates where
  command : Option String
  description : Option String
  argumentsJson : Option String
  category : Option String
  version : Option String
  keywords : Option String
  mode : Option String
  type : Option String
  device : Option String
  executableMcp : Option Bool
  impact : Option String
  relatedJson : Option String
  deprecated : Option Bool
deriving Repr, DecidableEq

/-- The empty update object. -/
def noUpdates : CommandUpdates :=
  ⟨none, none, none, none, none, none, none, none, none, none, none, none, none⟩

/-- `Object.entries(updates).length == 0`. -/
def CommandUpdates.isEmpty (u : CommandUpdates) : Bool :=
  u.command.isNone && u.description.isNone && u.argumentsJson.isNone &&
  u.category.isNone && u.version.isNone && u.keywords.isNone && u.mode.isNone &&
  u.type.isNone && u.device.isNone && u.executableMcp.isNone && u.impact.isNone &&
  u.relatedJson.isNone && u.deprecated.isNone

/-- JS truthiness of an optional string field: absent and `""` are falsy. -/
def isTruthyS (o : Option String) : Bool :=
  match o with
  | some s => !s.isEmpty
  | none => false

/-- Field-level application of the dynamic `UPDATE ... SET` statement to one
row. -/
def applyUpdates (c : CommandRow) (u : CommandUpdates) : CommandRow :=
  ⟨c.id, u.command.getD c.command, u.description.or c.description,
   u.argumentsJson.getD c.argumentsJson, u.category.getD c.category,
   u.version.or c.version, u.keywords.or c.keywords, u.mode.or c.mode,
   u.type.or c.type, u.device.or c.device, u.executableMcp.getD c.executableMcp,
   u.impact.or c.impact, u.relatedJson.getD c.relatedJson,
   u.deprecated.getD c.deprecated⟩

/-- The `checkpoint_commands` table after `UPDATE ... WHERE id = ?`. -/
def applyUpdatesDb (db : Db) (id : Nat) (u : CommandUpdates) : List CommandRow :=
  db.commands.map (fun c => if c.id == id then applyUpdates c u else c)

/-- `updateCommand(db, id, updates)`: throws on an empty update set; runs the
UPDATE; if `updates.command || updates.description` is *truthy* it re-reads
the row and regenerates the embedding from the post-update text.  When the
id is unknown that re-read yields `undefined` and `cmd.command` raises a
TypeError; state changes made before a throw survive, so the state is
returned alongside the `Except`. -/
def updateCommand (db : Db) (provider : String → Except String (List ℚ))
    (id : Nat) (u : CommandUpdates) : Db × Except String Bool :=
  if u.isEmpty then (db, .error "No fields to update")
  else
    let changes := db.commands.countP (fun c => c.id == id)
    let db1 : Db := ⟨applyUpdatesDb db id u, db.embeddings, db.nextId⟩
    if isTruthyS u.command || isTruthyS u.description then
      match db1.commands.find? (fun c => c.id == id) with
      | none => (db1, .error "TypeError: Cannot read properties of undefined")
      | some c =>
        match provider (textToEmbed c.command c.description) with
        | .error e => (db1, .error e)
        | .ok v => (⟨db1.commands, updateEmb id v db1.embeddings, db1.nextId⟩,
            .ok (decide (0 < changes)))
    else (db1, .ok (decide (0 < changes)))

/-! ### `deleteCommand` (lines 260–266) and `validateDatabase` (873–935) -/

/-- `deleteCommand(db, id)`: `DELETE FROM checkpoint_commands WHERE id = ?`;
the schema's `ON DELETE CASCADE` foreign key removes the embedding row with
the same `command_id`.  Returns `changes > 0`. -/
def deleteCommand (db : Db) (id : Nat) : Db × Bool :=
  (⟨db.commands.filter (fun c => c.id != id),
    db.embeddings.filter (fun e => e.1 != id), db.nextId⟩,
   decide (0 < db.commands.countP (fun c => c.id == id)))

/-- Records with no embedding (`LEFT JOIN ... WHERE ce.command_id IS NULL`). -/
def missingEmbeddingIds (db : Db) : List Nat :=
  (db.commands.filter (fun c => (db.embeddings.find? (fun e => e.1 == c.id)).isNone)).map
    (fun c => c.id)

/-- Orphaned embeddings: embedding rows whose `command_id` has no owning
record. -/
def orphanedEmbeddingIds (db : Db) : List Nat :=
  (db.embeddings.filter (fun e => (db.commands.find? (fun c => c.id == e.1)).isNone)).map
    (fun e => e.1)

/-- Records with an empty required field (`command`/`category` NULL or `''`;
the model folds NULL into `""`). -/
def invalidRecordIds (db : Db) : List Nat :=
  (db.commands.filter (fun c => c.command.isEmpty || c.category.isEmpty)).map (fun c => c.id)

/-! ### `rebuildAllEmbeddings` (lines 597–630) -/

/-- The summary object returned by `rebuildAllEmbeddings`: total, success
and failure *counts* only. -/
structure RebuildSummary where
  total : Nat
  success : Nat
  failed : Nat
deriving Repr, DecidableEq

/-- One iteration of the rebuild loop over `(db, success, failed)`: embed the
record's current text; on success DELETE the old embedding row and INSERT
the new one; on provider failure only bump the failure counter (the old
embedding row is untouched). -/
def rebuildStep (provider : String → Except String (List ℚ))
    (st : Db × Nat × Nat) (cmd : CommandRow) : Db × Nat × Nat :=
  match provider (textToEmbed cmd.command cmd.description) with
  | .ok v =>
    (⟨st.1.commands, insertEmb cmd.id v (st.1.embeddings.filter (fun e => e.1 != cmd.id)),
      st.1.nextId⟩, st.2.1 + 1, st.2.2)
  | .error _ => (st.1, st.2.1, st.2.2 + 1)

/-- `rebuildAllEmbeddings(db)`: iterate over a snapshot of all records,
catching each per-record failure, and return `{total, success, failed}`. -/
def rebuildAllEmbeddings (db : Db) (provider : String → Except String (List ℚ)) :
    Db × RebuildSummary :=
  let st := db.commands.foldl (rebuildStep provider) (db, 0, 0)
  (st.1, ⟨db.commands.length, st.2.1, st.2.2⟩)

/-- Whether the provider succeeds on a record's current text. -/
def providerOk (provider : String → Except String (List ℚ)) (c : CommandRow) : Bool :=
  match provider (textToEmbed c.command c.description) with
  | .ok _ => true
  | .error _ => false

/-! ### `searchCommands` (lines 276–352) -/

/-- A row of the ranked result list (`arguments` kept serialised). -/
structure SearchResult where
  id : Nat
  command : String
  description : Option String
  argumentsJson : String
  category : String
  mode : Option String
  type : Option String
  device : Option String
  impact : Option String
  score : Option ℚ
deriving Repr, DecidableEq

/-- `SELECT id FROM checkpoint_commands WHERE deprecated = 0` (the fallback
candidate set). -/
def allNonDeprecatedIds (db : Db) : List Nat :=
  (db.commands.filter (fun c => !c.deprecated)).map (fun c => c.id)

/-- The candidate-id computation of steps 1–3: FTS5 filtering when there are
keywords, with the FTS failure swallowed (`catch` leaves the list empty) and
the all-non-deprecated fallback whenever the list is still empty. -/
def candidateIdsOf (db : Db) (fts : List String → Except String (List Nat))
    (keywords : List String) : List Nat :=
  let fromFts :=
    if keywords.isEmpty then []
    else
      match fts keywords with
      | .ok l => l
      | .error _ => []
  if fromFts.isEmpty then allNonDeprecatedIds db else fromFts

/-- One candidate row of the join
`command_embeddings ce JOIN checkpoint_commands cc ON ce.command_id = cc.id
WHERE ce.command_id IN (...)`, keyed by the embedding row. -/
def joinRow (db : Db) (ids : List Nat) (e : Nat × List ℚ) :
    Option (Nat × CommandRow × List ℚ) :=
  if ids.contains e.1 then
    (db.commands.find? (fun c => c.id == e.1)).map (fun c => (e.1, c, e.2))
  else none

/-- Step 5's SELECT: scan the embedding B-tree (ascending `command_id`) and
join each row in the IN-list with its record.  An empty IN-list is legal in
SQLite and yields no rows. -/
def embJoin (db : Db) (ids : List Nat) : List (Nat × CommandRow × List ℚ) :=
  db.embeddings.filterMap (joinRow db ids)

/-- Score one candidate: decode its embedding and take the cosine similarity
with the query embedding (a length mismatch throws out of the whole map). -/
def scoreRow (qe : List ℚ) (row : Nat × CommandRow × List ℚ) :
    Except String SearchResult :=
  match cosineSimilarity qe row.2.2 with
  | .error e => .error e
  | .ok s =>
    .ok ⟨row.1, row.2.1.command, row.2.1.description, row.2.1.argumentsJson,
      row.2.1.category, row.2.1.mode, row.2.1.type, row.2.1.device, row.2.1.impact, s⟩

/-- `candidates.map(...)` with the exception of the first failing candidate
propagating. -/
def scoreRows (qe : List ℚ) : List (Nat × CommandRow × List ℚ) →
    Except String (List SearchResult)
  | [] => .ok []
  | row :: rest =>
    match scoreRow qe row with
    | .error e => .error e
    | .ok s =>
      match scoreRows qe rest with
      | .error e => .error e
      | .ok ss => .ok (s :: ss)

/-- `r.score >= scoreThreshold` with IEEE semantics: NaN compares false. -/
def passThreshold (thr : ℚ) (r : SearchResult) : Bool :=
  match r.score with
  | none => false
  | some q => decide (thr ≤ q)

/-- The effective order of the comparator `(a, b) => b.score - a.score`:
`a` stays before `b` when `a.score ≥ b.score`.  NaN never reaches the sort
(it is removed by the threshold filter), so the NaN rows of this table are
arbitrary. -/
def scoreGe (a b : Option ℚ) : Bool :=
  match a, b with
  | some x, some y => decide (y ≤ x)
  | _, _ => false

/-- Stable insertion of `r` (which precedes every element of the list in the
original order) into a descending-sorted list: `r` goes before the first
element it compares `≥` against. -/
def insDesc (r : SearchResult) : List SearchResult → List SearchResult
  | [] => [r]
  | x :: xs => if scoreGe r.score x.score then r :: x :: xs else x :: insDesc r xs

/-- The stable descending-by-score sort performed by
`.sort((a, b) => b.score - a.score)` (ECMAScript sorts are stable). -/
def sortDesc (l : List SearchResult) : List SearchResult :=
  l.foldr insDesc []

/-- Step 6: `.filter(score ≥ threshold).sort(desc).slice(0, limit)`. -/
def rank (thr : ℚ) (lim : Nat) (rs : List SearchResult) : List SearchResult :=
  (sortDesc (rs.filter (passThreshold thr))).take lim

/-- Spec-side tie-broken order: descending score, ties by ascending record
id (a total order on rows with distinct ids and non-NaN scores). -/
def lexBefore (r x : SearchResult) : Bool :=
  match r.score, x.score with
  | some a, some b => decide (b < a) || (decide (a = b) && decide (r.id < x.id))
  | _, _ => false

/-- Insertion into a list sorted by `lexBefore`. -/
def insLex (r : SearchResult) : List SearchResult → List SearchResult
  | [] => [r]
  | x :: xs => if lexBefore r x then r :: x :: xs else x :: insLex r xs

/-- Modelled from the spec: sort by descending score with ties broken by
ascending record identifier. -/
def lexSort (l : List SearchResult) : List SearchResult :=
  l.foldr insLex []

/-- Modelled from the spec: keep exactly the candidates with score ≥
threshold, in the deterministic (score desc, id asc) order, truncated to the
limit. -/
def specRank (thr : ℚ) (lim : Nat) (rs : List SearchResult) : List SearchResult :=
  (lexSort (rs.filter (passThreshold thr))).take lim

/-- Steps 4–6 of `searchCommands` for a given candidate-id set. -/
def searchFrom (db : Db) (candidateIds : List Nat) (qe : List ℚ) (thr : ℚ)
    (lim : Nat) : Except String (List SearchResult) :=
  match scoreRows qe (embJoin db candidateIds) with
  | .error e => .error e
  | .ok results => .ok (rank thr lim results)

/-- `searchCommands(db, query, limit, scoreThreshold)`; the query embedding
`qe` is the materialised result of the `getEmbedding(query)` call and `fts`
is the FTS5 MATCH oracle. -/
def searchCommands (db : Db) (fts : List String → Except String (List Nat))
    (query : String) (qe : List ℚ) (lim : Nat) (thr : ℚ) :
    Except String (List SearchResult) :=
  searchFrom db (candidateIdsOf db fts (extractKeywords query 3)) qe thr lim

/-! ### Shared concrete test fixtures -/

/-- The empty database. -/
def emptyDb : Db := ⟨[], [], 1⟩

/-- A minimal record row used by the concrete witnesses. -/
def sampleRow (id : Nat) (cmd : String) (descr : Option String) : CommandRow :=
  ⟨id, cmd, descr, "[]", "clusterxl", none, none, none, none, none, false, none, "[]", false⟩

/-- A provider that always fails, as a flaky Ollama endpoint does. -/
def failingProvider : String → Except String (List ℚ) :=
  fun _ => .error "Ollama API error: Internal Server Error"

/-- Sample creation payload for the C4 scenario. -/
def sampleData (cmd : String) (descr : Option String) : CommandData :=
  ⟨cmd, descr, "[]", "clusterxl", none, none, none, none, none, false, none, "[]"⟩

/-- A provider used by the update scenarios: it would return the vector
`[9]` for any text. -/
def nineProvider : String → Except String (List ℚ) :=
  fun _ => .ok [9]

/-- Two records, embeddings present for both. -/
def rebuildDbC5 : Db :=
  ⟨[sampleRow 1 "alpha" none, sampleRow 2 "beta" none], [(1, [1]), (2, [1])], 3⟩

/-- Provider failing exactly on record 1's text. -/
def provFailAlpha : String → Except String (List ℚ) :=
  fun s => if s == "alpha" then .error "boom" else .ok [1]

/-- Provider failing exactly on record 2's text, with a different reason. -/
def provFailBeta : String → Except String (List ℚ) :=
  fun s => if s == "beta" then .error "crash" else .ok [1]

/-- One-record database for the C3 witness. -/
def c3db : Db := ⟨[sampleRow 1 "gamma" none], [(1, [1])], 2⟩

/-- FTS oracle for the C3 witness. -/
def c3fts : List String → Except String (List Nat) := fun _ => .ok [1]

/-- Scored candidate list for the C3 witness (cosine of `[1]` with `[1]`
is exactly 1). -/
def c3rs : List SearchResult :=
  [⟨1, "gamma", none, "[]", "clusterxl", none, none, none, none, some 1⟩]

/-- A candidate row carrying a NaN score, for the C10 witness. -/
def zeroScoreResult : SearchResult :=
  ⟨9, "zz", none, "[]", "clusterxl", none, none, none, none, none⟩

/-! ### Claim C1: delete cascades to the embedding store -/

/-- Claim C1.  For every record id present in the store, `deleteCommand`
removes the record and cascade-deletes its embedding: afterwards the
embedding-store lookup for that id is absent and the integrity check
reports no orphaned embedding for that id (and the operation reports
success). -/
theorem deleteCommand_cascades (db : Db) (id : Nat)
    (h : ∃ c ∈ db.commands, c.id = id) :
    (deleteCommand db id).1.commands.find? (fun c => c.id == id) = none ∧
    embLookup (deleteCommand db id).1 id = none ∧
    id ∉ orphanedEmbeddingIds (deleteCommand db id).1 ∧
    (deleteCommand db id).2 = true := by
  refine ⟨?_, ?_, ?_, ?_⟩
  · rw [List.find?_eq_none]
    intro x hx
    have := (List.mem_filter.mp hx).2
    simpa using this
  · have : (deleteCommand db id).1.embeddings.find? (fun e => e.1 == id) = none := by
      rw [List.find?_eq_none]
      intro x hx
      have := (List.mem_filter.mp hx).2
      simpa using this
    simp [embLookup, this]
  · intro hmem
    simp only [orphanedEmbeddingIds, List.mem_map] at hmem
    obtain ⟨e, he, heid⟩ := hmem
    have h1 := (List.mem_filter.mp he).1
    have h2 := (List.mem_filter.mp h1).2
    rw [heid] at h2
    simp at h2
  · obtain ⟨c, hc, hcid⟩ := h
    have : 0 < db.commands.countP (fun c => c.id == id) := by
      rw [List.countP_pos_iff]
      exact ⟨c, hc, by simp [hcid]⟩
    simp [deleteCommand, this]

/-- Witness for C1 at a one-record database. -/
theorem deleteCommand_cascades_witness :
    (deleteCommand ⟨[sampleRow 7 "cphaprob" none], [(7, [1])], 8⟩ 7).1.commands.find?
        (fun c => c.id == 7) = none ∧
    embLookup (deleteCommand ⟨[sampleRow 7 "cphaprob" none], [(7, [1])], 8⟩ 7).1 7 = none ∧
    7 ∉ orphanedEmbeddingIds (deleteCommand ⟨[sampleRow 7 "cphaprob" none], [(7, [1])], 8⟩ 7).1 ∧
    (deleteCommand ⟨[sampleRow 7 "cphaprob" none], [(7, [1])], 8⟩ 7).2 = true :=
  deleteCommand_cascades _ 7 ⟨sampleRow 7 "cphaprob" none, by simp, rfl⟩

/-! ### Claim C2: an empty candidate set yields an empty result, no error -/

/-- Helper: the join over an empty IN-list yields no rows. -/
theorem embJoin_nil (db : Db) : embJoin db [] = [] := by
  simp [embJoin, joinRow, List.filterMap_eq_nil_iff]

/-- Claim C2.  When the candidate set handed to the similarity ranker is
empty (for instance because the record store is empty, so both the lexical
filter and the all-non-deprecated fallback yield zero identifiers),
`searchCommands` returns `.ok []` — an empty list, not an error. -/
theorem searchCommands_empty_candidates (db : Db)
    (fts : List String → Except String (List Nat)) (query : String)
    (qe : List ℚ) (lim : Nat) (thr : ℚ)
    (h : candidateIdsOf db fts (extractKeywords query 3) = []) :
    searchCommands db fts query qe lim thr = .ok [] := by
  simp [searchCommands, searchFrom, h, embJoin_nil, scoreRows, rank, sortDesc]

/-- Witness for C2 at the empty database (both filter and fallback empty). -/
theorem searchCommands_empty_candidates_witness :
    searchCommands emptyDb (fun _ => .ok []) "list files" [1] 5 (3/10) = .ok [] :=
  searchCommands_empty_candidates _ _ _ _ _ _ (by decide)

/-! ### Claim C8: uninformative lexical filtering falls back to the whole
non-deprecated corpus, and FTS failures are absorbed -/

/-- Claim C8.  If the extracted token set is empty, or the FTS lookup
returns zero matches, or the FTS lookup fails, then the candidate set used
for similarity ranking is exactly the set of all non-deprecated record
identifiers, and the search proceeds with it (the failure is not
propagated: the result is the same as a search handed that candidate set
directly). -/
theorem searchCommands_fallback (db : Db)
    (fts : List String → Except String (List Nat)) (query : String)
    (qe : List ℚ) (lim : Nat) (thr : ℚ)
    (h : extractKeywords query 3 = [] ∨
         fts (extractKeywords query 3) = .ok [] ∨
         ∃ e, fts (extractKeywords query 3) = .error e) :
    candidateIdsOf db fts (extractKeywords query 3) = allNonDeprecatedIds db ∧
    searchCommands db fts query qe lim thr =
      searchFrom db (allNonDeprecatedIds db) qe thr lim := by
  have hc : candidateIdsOf db fts (extractKeywords query 3) = allNonDeprecatedIds db := by
    rcases h with h | h | ⟨e, h⟩ <;> simp [candidateIdsOf, h]
  exact ⟨hc, by simp only [searchCommands]; rw [hc]⟩

/-- Witness for C8: a query whose keywords crash the FTS oracle still draws
candidates from the full non-deprecated corpus. -/
theorem searchCommands_fallback_witness :
    candidateIdsOf ⟨[sampleRow 1 "fwaccel" none], [(1, [2])], 2⟩
        (fun _ => .error "malformed MATCH expression") (extractKeywords "zzqt" 3) =
      allNonDeprecatedIds ⟨[sampleRow 1 "fwaccel" none], [(1, [2])], 2⟩ ∧
    searchCommands ⟨[sampleRow 1 "fwaccel" none], [(1, [2])], 2⟩
        (fun _ => .error "malformed MATCH expression") "zzqt" [2] 5 (3/10) =
      searchFrom ⟨[sampleRow 1 "fwaccel" none], [(1, [2])], 2⟩
        (allNonDeprecatedIds ⟨[sampleRow 1 "fwaccel" none], [(1, [2])], 2⟩) [2] (3/10) 5 :=
  searchCommands_fallback _ _ _ _ _ _ (Or.inr (Or.inr ⟨_, rfl⟩))

/-! ### Claim C9: the BLOB codec round-trips bit-for-bit -/

/-- Helper: reassembling the eight little-endian bytes of a 64-bit pattern
recovers the pattern. -/
theorem readDoubleLE_writeDoubleLE (w : Nat) (h : w < 2 ^ 64) :
    w % 256 + 256 * (w / 256 % 256) + 65536 * (w / 65536 % 256) +
      16777216 * (w / 16777216 % 256) + 4294967296 * (w / 4294967296 % 256) +
      1099511627776 * (w / 1099511627776 % 256) +
      281474976710656 * (w / 281474976710656 % 256) +
      72057594037927936 * (w / 72057594037927936 % 256) = w := by
  omega

/-- Claim C9.  For every vector of finite float components (modelled by
their binary64 bit patterns), decoding the encoded blob returns the
original vector bit-for-bit, including the empty and single-element
vectors. -/
theorem blobToEmbedding_embeddingToBlob (v : List Nat)
    (h : ∀ w ∈ v, w < 2 ^ 64 ∧ float64IsFinite w = true) :
    blobToEmbedding (embeddingToBlob v) = .ok v := by
  induction v with
  | nil => rfl
  | cons w ws ih =>
    have hw : w < 2 ^ 64 := (h w (List.mem_cons_self _ _)).1
    have hrec := ih (fun x hx => h x (List.mem_cons_of_mem _ hx))
    show blobToEmbedding (writeDoubleLE w ++ embeddingToBlob ws) = .ok (w :: ws)
    simp only [writeDoubleLE, List.cons_append, List.nil_append, blobToEmbedding]
    rw [readDoubleLE_writeDoubleLE w hw]
    simp only [List.nil_append, List.append_eq, hrec]

/-- Witness for C9 on the two-component vector ⟨1.0, 0.0⟩ (bit patterns
`0x3FF0000000000000` and `0`). -/
theorem blobToEmbedding_embeddingToBlob_witness :
    (∀ w ∈ [4607182418800017408, 0], w < 2 ^ 64 ∧ float64IsFinite w = true) ∧
    blobToEmbedding (embeddingToBlob [4607182418800017408, 0]) =
      .ok [4607182418800017408, 0] :=
  ⟨by decide, blobToEmbedding_embeddingToBlob _ (by decide)⟩

/-! ### Claim C4: a provider failure during `addCommand` leaves the inserted
record in place, but the propagated error does not name the new id -/

/-- Counterexample to claim C4 as stated.  At the empty database the insert
gets id 1, the provider failure propagates verbatim — and the surfaced
error message does not name the new identifier (the digit `1` does not even
occur in it), refuting "an error that names the newly inserted record's
identifier". -/
theorem addCommand_error_lacks_id :
    (addCommand emptyDb failingProvider (sampleData "cphaprob" (some "cluster state"))).2 =
      .error "Ollama API error: Internal Server Error" ∧
    (addCommand emptyDb failingProvider
        (sampleData "cphaprob" (some "cluster state"))).1.commands.map (fun c => c.id) = [1] ∧
    ¬ '1' ∈ "Ollama API error: Internal Server Error".toList := by
  refine ⟨rfl, by decide, by decide⟩

/-- Claim C4 as amended.  For every create call that passes the
required-field and duplicate checks, if the embedding provider fails then
the freshly inserted record stays in the record store (no rollback), the
embedding store is untouched, and the failure is surfaced to the caller as
an error carrying the provider's message (which does not name the new
identifier). -/
theorem addCommand_partial_success (db : Db)
    (provider : String → Except String (List ℚ)) (d : CommandData) (msg : String)
    (hcmd : d.command.isEmpty = false) (hcat : d.category.isEmpty = false)
    (hdup : db.commands.find?
        (fun c => c.command == d.command && c.category == d.category) = none)
    (hfail : provider (textToEmbed d.command d.description) = .error msg) :
    (addCommand db provider d).2 = .error msg ∧
    mkRow db.nextId d ∈ (addCommand db provider d).1.commands ∧
    (addCommand db provider d).1.embeddings = db.embeddings := by
  have h1 : (d.command.isEmpty || d.category.isEmpty) = false := by
    rw [hcmd, hcat]
    rfl
  refine ⟨?_, ?_, ?_⟩ <;> simp [addCommand, h1, hdup, hfail]

/-- Witness for the amended C4 at a concrete one-record database. -/
theorem addCommand_partial_success_witness :
    (addCommand ⟨[sampleRow 3 "fw" none], [(3, [1])], 4⟩ failingProvider
        (sampleData "cpstat" none)).2 = .error "Ollama API error: Internal Server Error" ∧
    mkRow 4 (sampleData "cpstat" none) ∈
      (addCommand ⟨[sampleRow 3 "fw" none], [(3, [1])], 4⟩ failingProvider
        (sampleData "cpstat" none)).1.commands ∧
    (addCommand ⟨[sampleRow 3 "fw" none], [(3, [1])], 4⟩ failingProvider
        (sampleData "cpstat" none)).1.embeddings = [(3, [1])] :=
  addCommand_partial_success _ _ _ _ (by decide) (by decide) (by decide) rfl

/-! ### Claim C6: when the embedding is (not) regenerated on update -/

/-- Counterexample to claim C6 as stated.  Updating record 1's description
from `"cluster state"` to `""` *changes* the description, but
`updates.description` is falsy, so the code skips regeneration: the stored
embedding stays `[5]`, although regeneration from the post-update text
would have stored `[9]`. -/
theorem updateCommand_empty_string_skips_regen :
    (applyUpdates (sampleRow 1 "cphaprob" (some "cluster state"))
        { noUpdates with description := some "" }).description = some "" ∧
    (sampleRow 1 "cphaprob" (some "cluster state")).description = some "cluster state" ∧
    (updateCommand ⟨[sampleRow 1 "cphaprob" (some "cluster state")], [(1, [5])], 2⟩
        nineProvider 1 { noUpdates with description := some "" }).2 = .ok true ∧
    embLookup (updateCommand ⟨[sampleRow 1 "cphaprob" (some "cluster state")], [(1, [5])], 2⟩
        nineProvider 1 { noUpdates with description := some "" }).1 1 = some [5] ∧
    nineProvider (textToEmbed "cphaprob" (some "")) = .ok [9] ∧
    ([5] : List ℚ) ≠ [9] := by
  refine ⟨rfl, rfl, rfl, rfl, rfl, by decide⟩

/-- Claim C6 as amended.  On a non-empty update set, the stored embedding is
regenerated exactly when the update contains a *truthy* (non-empty) name or
description value — whether or not the value differs from the stored one —
and then from the post-update name and description; an update carrying no
truthy name/description (including one that sets the description to the
empty string, even though that is a change) leaves the embedding store
untouched. -/
theorem updateCommand_regen_iff_truthy (db : Db)
    (provider : String → Except String (List ℚ)) (id : Nat) (u : CommandUpdates)
    (c : CommandRow) (v : List ℚ)
    (hne : u.isEmpty = false)
    (htr : (isTruthyS u.command || isTruthyS u.description) = true →
      (applyUpdatesDb db id u).find? (fun c => c.id == id) = some c ∧
      provider (textToEmbed c.command c.description) = .ok v) :
    (updateCommand db provider id u).1.embeddings =
      if isTruthyS u.command || isTruthyS u.description then updateEmb id v db.embeddings
      else db.embeddings := by
  by_cases h : (isTruthyS u.command || isTruthyS u.description) = true
  · obtain ⟨hfind, hprov⟩ := htr h
    simp [updateCommand, hne, h, hfind, hprov]
  · have hb : (isTruthyS u.command || isTruthyS u.description) = false := by
      revert h
      cases isTruthyS u.command || isTruthyS u.description <;> simp
    simp [updateCommand, hne, hb]

/-- Witness for the amended C6: a truthy command update regenerates from the
post-update text. -/
theorem updateCommand_regen_iff_truthy_witness :
    (updateCommand ⟨[sampleRow 1 "cphaprob" (some "cluster state")], [(1, [5])], 2⟩
        nineProvider 1 { noUpdates with command := some "cphastop" }).1.embeddings =
      if isTruthyS (some "cphastop") || isTruthyS none
      then updateEmb 1 [9] [(1, [5])]
      else [(1, [5])] :=
  updateCommand_regen_iff_truthy _ _ _ _
    (applyUpdates (sampleRow 1 "cphaprob" (some "cluster state"))
      { noUpdates with command := some "cphastop" }) [9]
    (by decide) (fun _ => ⟨by decide, rfl⟩)

/-! ### Claim C7: updating an unknown id -/

/-- Claim C7 is a code bug: for an identifier not present in the store, an
update whose field set contains a truthy `command` (or `description`) does
*not* report NotFound — the post-update re-read returns `undefined` and the
code raises a TypeError.  This theorem evaluates the model at the failing
input `updateCommand(emptyDb, 1, {command: "x"})`; an update without a
truthy name/description does return the NotFound outcome (`.ok false`). -/
theorem updateCommand_unknown_id_type_error :
    emptyDb.commands.find? (fun c => c.id == 1) = none ∧
    (updateCommand emptyDb nineProvider 1 { noUpdates with command := some "x" }).2 =
      .error "TypeError: Cannot read properties of undefined" ∧
    (updateCommand emptyDb nineProvider 1 { noUpdates with category := some "nat" }).2 =
      .ok false := by
  refine ⟨rfl, rfl, rfl⟩

/-! ### Claim C5: full-corpus rebuild collects per-record failures -/

/-- Helper: filtering out one key leaves lookups for other keys unchanged. -/
theorem find?_filter_ne_key (l : List (Nat × List ℚ)) (k id : Nat) (h : k ≠ id) :
    (l.filter (fun e => e.1 != k)).find? (fun e => e.1 == id) =
      l.find? (fun e => e.1 == id) := by
  induction l with
  | nil => rfl
  | cons e t ih =>
    by_cases he : e.1 = id
    · have hek : e.1 ≠ k := by
        rw [he]
        exact Ne.symm h
      simp [he, hek, Ne.symm h]
    · by_cases hk2 : e.1 = k <;> simp [he, hk2, ih, h]

/-- Helper: a B-tree insert at one key leaves lookups for other keys
unchanged. -/
theorem find?_insertEmb_ne (k : Nat) (v : List ℚ) (l : List (Nat × List ℚ)) (id : Nat)
    (h : k ≠ id) :
    (insertEmb k v l).find? (fun e => e.1 == id) = l.find? (fun e => e.1 == id) := by
  induction l with
  | nil => simp [insertEmb, h]
  | cons e t ih =>
    by_cases hk : k < e.1
    · simp [insertEmb, hk, h]
    · by_cases he : e.1 = id
      · rw [he] at hk
        simp [insertEmb, hk, he]
      · simp [insertEmb, hk, he, ih]

/-- Helper: the success/failure counters of the rebuild loop count exactly
the records on which the provider succeeds/fails. -/
theorem rebuild_counts (p : String → Except String (List ℚ)) (l : List CommandRow) :
    ∀ (db0 : Db) (s f : Nat),
    ((l.foldl (rebuildStep p) (db0, s, f)).2.1 = s + l.countP (providerOk p)) ∧
    ((l.foldl (rebuildStep p) (db0, s, f)).2.2 = f + l.countP (fun c => !providerOk p c)) := by
  induction l with
  | nil => intro db0 s f; simp
  | cons c t ih =>
    intro db0 s f
    cases hp : p (textToEmbed c.command c.description) with
    | ok v =>
      have h1 : providerOk p c = true := by simp [providerOk, hp]
      simp only [List.foldl_cons, rebuildStep, hp]
      obtain ⟨ia, ib⟩ := ih _ (s + 1) f
      refine ⟨?_, ?_⟩
      · rw [ia, List.countP_cons_of_pos _ _ h1]
        omega
      · rw [ib, List.countP_cons_of_neg _ _ (by simp [h1])]
    | error e =>
      have h1 : providerOk p c = false := by simp [providerOk, hp]
      simp only [List.foldl_cons, rebuildStep, hp]
      obtain ⟨ia, ib⟩ := ih _ s (f + 1)
      refine ⟨?_, ?_⟩
      · rw [ia, List.countP_cons_of_neg _ _ (by simp [h1])]
      · rw [ib, List.countP_cons_of_pos _ _ (by simp [h1])]
        omega

/-- Helper: a predicate and its negation count every element exactly once. -/
theorem countP_add_countP_not {α : Type} (p : α → Bool) (l : List α) :
    l.countP p + l.countP (fun a => !p a) = l.length := by
  induction l with
  | nil => rfl
  | cons a t ih =>
    by_cases h : p a = true
    · rw [List.countP_cons_of_pos _ _ h, List.countP_cons_of_neg _ _ (by simp [h]),
        List.length_cons]
      omega
    · rw [List.countP_cons_of_neg _ _ h, List.countP_cons_of_pos _ _ (by simp [h]),
        List.length_cons]
      omega

/-- Helper: the rebuild loop never touches the embedding row of a record id
on which every matching record fails. -/
theorem rebuild_preserves_lookup (p : String → Except String (List ℚ)) (cid : Nat) :
    ∀ (l : List CommandRow) (st : Db × Nat × Nat),
    (∀ x ∈ l, x.id = cid → providerOk p x = false) →
    ((l.foldl (rebuildStep p) st).1.embeddings.find? (fun e => e.1 == cid)) =
      st.1.embeddings.find? (fun e => e.1 == cid) := by
  intro l
  induction l with
  | nil => intro st _; rfl
  | cons c t ih =>
    intro st h
    cases hp : p (textToEmbed c.command c.description) with
    | ok v =>
      have hne : c.id ≠ cid := by
        intro hcid
        have hfalse := h c (List.mem_cons_self _ _) hcid
        simp [providerOk, hp] at hfalse
      simp only [List.foldl_cons, rebuildStep, hp]
      rw [ih _ (fun x hx => h x (List.mem_cons_of_mem _ hx))]
      simp only
      rw [find?_insertEmb_ne _ _ _ _ hne, find?_filter_ne_key _ _ _ hne]
    | error e =>
      simp only [List.foldl_cons, rebuildStep, hp]
      exact ih _ (fun x hx => h x (List.mem_cons_of_mem _ hx))

/-- Claim C5 as amended.  A per-record provider failure never aborts the
full-corpus rebuild: every record is processed (`success + failed = total`),
the returned summary carries the success and failure counts (but *no*
per-failure detail — see the counterexample below), and every record whose
provider call failed retains its prior stored embedding. -/
theorem rebuildAllEmbeddings_partial_failure (db : Db)
    (p : String → Except String (List ℚ)) (c : CommandRow) (msg : String)
    (hnodup : (db.commands.map (fun r => r.id)).Nodup)
    (hc : c ∈ db.commands)
    (hfail : p (textToEmbed c.command c.description) = .error msg) :
    (rebuildAllEmbeddings db p).2.total = db.commands.length ∧
    (rebuildAllEmbeddings db p).2.success = db.commands.countP (providerOk p) ∧
    (rebuildAllEmbeddings db p).2.failed =
      db.commands.countP (fun x => !providerOk p x) ∧
    (rebuildAllEmbeddings db p).2.success + (rebuildAllEmbeddings db p).2.failed =
      db.commands.length ∧
    embLookup (rebuildAllEmbeddings db p).1 c.id = embLookup db c.id := by
  obtain ⟨ha, hb⟩ := rebuild_counts p db.commands db 0 0
  have hs : (rebuildAllEmbeddings db p).2.success = db.commands.countP (providerOk p) := by
    simpa [rebuildAllEmbeddings] using ha
  have hf : (rebuildAllEmbeddings db p).2.failed =
      db.commands.countP (fun x => !providerOk p x) := by
    simpa [rebuildAllEmbeddings] using hb
  refine ⟨rfl, hs, hf, ?_, ?_⟩
  · rw [hs, hf]
    exact countP_add_countP_not _ _
  · have hprem : ∀ x ∈ db.commands, x.id = c.id → providerOk p x = false := by
      intro x hx hid
      have hxc : x = c :=
        List.inj_on_of_nodup_map hnodup hx hc (by simpa using hid)
      rw [hxc]
      simp [providerOk, hfail]
    have := rebuild_preserves_lookup p c.id db.commands (db, 0, 0) hprem
    simp only [rebuildAllEmbeddings, embLookup]
    rw [this]

/-- Counterexample to claim C5 as stated: two rebuild runs that fail on
*different* records for *different* reasons return identical summaries, so
the summary returned by `rebuildAllEmbeddings` cannot contain the claimed
per-failure detail (record id and reason) — it only carries counts. -/
theorem rebuildAllEmbeddings_summary_lacks_detail :
    (rebuildAllEmbeddings rebuildDbC5 provFailAlpha).2 =
      (rebuildAllEmbeddings rebuildDbC5 provFailBeta).2 ∧
    provFailAlpha (textToEmbed "alpha" none) = .error "boom" ∧
    provFailBeta (textToEmbed "beta" none) = .error "crash" ∧
    provFailAlpha (textToEmbed "beta" none) = .ok [1] ∧
    provFailBeta (textToEmbed "alpha" none) = .ok [1] ∧
    ("boom" : String) ≠ "crash" := by
  refine ⟨by decide, rfl, rfl, rfl, rfl, by decide⟩

/-- Witness for the amended C5 at the concrete two-record database where
record 1's provider call fails. -/
theorem rebuildAllEmbeddings_partial_failure_witness :
    (rebuildAllEmbeddings rebuildDbC5 provFailAlpha).2.total =
      rebuildDbC5.commands.length ∧
    (rebuildAllEmbeddings rebuildDbC5 provFailAlpha).2.success =
      rebuildDbC5.commands.countP (providerOk provFailAlpha) ∧
    (rebuildAllEmbeddings rebuildDbC5 provFailAlpha).2.failed =
      rebuildDbC5.commands.countP (fun x => !providerOk provFailAlpha x) ∧
    (rebuildAllEmbeddings rebuildDbC5 provFailAlpha).2.success +
        (rebuildAllEmbeddings rebuildDbC5 provFailAlpha).2.failed =
      rebuildDbC5.commands.length ∧
    embLookup (rebuildAllEmbeddings rebuildDbC5 provFailAlpha).1
        (sampleRow 1 "alpha" none).id = embLookup rebuildDbC5 (sampleRow 1 "alpha" none).id :=
  rebuildAllEmbeddings_partial_failure _ _ _ "boom" (by decide) (by decide) rfl

/-! ### Claim C3: deterministic ranking -/

/-- Helper: a join row keeps the key of the embedding row it came from. -/
theorem joinRow_key (db : Db) (ids : List Nat) (e : Nat × List ℚ)
    (y : Nat × CommandRow × List ℚ) (h : joinRow db ids e = some y) : y.1 = e.1 := by
  unfold joinRow at h
  by_cases hc : ids.contains e.1 = true
  · rw [if_pos hc] at h
    obtain ⟨c, _, hcy⟩ := Option.map_eq_some'.mp h
    rw [← hcy]
  · rw [if_neg hc] at h
    cases h

/-- Helper: the join preserves the ascending key order of the embedding
B-tree scan. -/
theorem pairwise_embJoin (db : Db) (ids : List Nat) (h : EmbKeysSorted db) :
    (embJoin db ids).Pairwise (fun a b => a.1 < b.1) := by
  refine List.Pairwise.filterMap (joinRow db ids) ?_ h
  intro a a' hlt y hy y' hy'
  rw [joinRow_key db ids a y hy, joinRow_key db ids a' y' hy']
  exact hlt

/-- Helper: scoring keeps the candidate's id. -/
theorem scoreRow_id (qe : List ℚ) (row : Nat × CommandRow × List ℚ) (s : SearchResult)
    (h : scoreRow qe row = .ok s) : s.id = row.1 := by
  unfold scoreRow at h
  cases hc : cosineSimilarity qe row.2.2 with
  | error e =>
    rw [hc] at h
    cases h
  | ok sc =>
    rw [hc] at h
    simp only [Except.ok.injEq] at h
    rw [← h]

/-- Helper: a successful scoring pass maps candidate keys to result ids
positionally. -/
theorem scoreRows_ids (qe : List ℚ) : ∀ (rows : List (Nat × CommandRow × List ℚ))
    (rs : List SearchResult), scoreRows qe rows = .ok rs →
    rs.map (fun r => r.id) = rows.map (fun p => p.1) := by
  intro rows
  induction rows with
  | nil =>
    intro rs h
    simp only [scoreRows, Except.ok.injEq] at h
    rw [← h]
    rfl
  | cons row rest ih =>
    intro rs h
    unfold scoreRows at h
    cases hr : scoreRow qe row with
    | error e =>
      rw [hr] at h
      cases h
    | ok s =>
      rw [hr] at h
      cases hrest : scoreRows qe rest with
      | error e =>
        rw [hrest] at h
        cases h
      | ok ss =>
        rw [hrest] at h
        simp only [Except.ok.injEq] at h
        subst h
        simp only [List.map_cons, scoreRow_id qe row s hr, ih ss hrest]

/-- Helper: membership in an `insLex` insertion. -/
theorem mem_insLex (r x : SearchResult) : ∀ (L : List SearchResult),
    x ∈ insLex r L → x = r ∨ x ∈ L := by
  intro L
  induction L with
  | nil =>
    intro h
    simp only [insLex] at h
    rcases List.mem_cons.mp h with h | h
    · exact Or.inl h
    · cases h
  | cons y t ih =>
    intro h
    simp only [insLex] at h
    by_cases hb : lexBefore r y = true
    · rw [if_pos hb] at h
      rcases List.mem_cons.mp h with h | h
      · exact Or.inl h
      · exact Or.inr h
    · rw [if_neg hb] at h
      rcases List.mem_cons.mp h with h | h
      · exact Or.inr (List.mem_cons.mpr (Or.inl h))
      · rcases ih h with h | h
        · exact Or.inl h
        · exact Or.inr (List.mem_cons.mpr (Or.inr h))

/-- Helper: the spec-side sort permutes membership downwards. -/
theorem mem_lexSort (x : SearchResult) : ∀ (l : List SearchResult),
    x ∈ lexSort l → x ∈ l := by
  intro l
  induction l with
  | nil => intro h; cases h
  | cons y t ih =>
    intro h
    rcases mem_insLex y x (lexSort t) h with h | h
    · simp [h]
    · exact List.mem_cons.mpr (Or.inr (ih h))

/-- Helper: when the inserted row has an id below every id of the list, the
stable score-descending insertion agrees with the (score desc, id asc)
insertion. -/
theorem insDesc_eq_insLex (r : SearchResult) : ∀ (L : List SearchResult),
    (∀ x ∈ L, r.id < x.id) → insDesc r L = insLex r L := by
  intro L
  induction L with
  | nil => intro _; rfl
  | cons x t ih =>
    intro h
    have hx : r.id < x.id := h x (List.mem_cons_self _ _)
    have hcond : scoreGe r.score x.score = lexBefore r x := by
      unfold scoreGe lexBefore
      cases hr : r.score with
      | none => cases x.score <;> rfl
      | some a =>
        cases hs : x.score with
        | none => rfl
        | some b =>
          rcases lt_trichotomy b a with h1 | h1 | h1
          · simp [le_of_lt h1, h1]
          · subst h1
            simp [hx]
          · have hab : a ≠ b := ne_of_lt h1
            simp [not_le.mpr h1, not_lt.mpr (le_of_lt h1), hab]
    simp only [insDesc, insLex, hcond]
    by_cases hb : lexBefore r x = true
    · rw [if_pos hb, if_pos hb]
    · rw [if_neg hb, if_neg hb, ih (fun z hz => h z (List.mem_cons_of_mem _ hz))]

/-- Helper: on a list with strictly ascending ids, the stable
score-descending sort of the code equals the spec-side (score desc, id asc)
sort. -/
theorem sortDesc_eq_lexSort : ∀ (l : List SearchResult),
    l.Pairwise (fun a b => a.id < b.id) → sortDesc l = lexSort l := by
  intro l
  induction l with
  | nil => intro _; rfl
  | cons r t ih =>
    intro hp
    rw [List.pairwise_cons] at hp
    obtain ⟨h1, h2⟩ := hp
    show insDesc r (sortDesc t) = insLex r (lexSort t)
    rw [ih h2]
    exact insDesc_eq_insLex r (lexSort t) (fun x hx => h1 x (mem_lexSort x t hx))

/-- Helper: the code's rank stage equals the spec's rank stage on candidate
lists with strictly ascending ids. -/
theorem rank_eq_specRank (thr : ℚ) (lim : Nat) (rs : List SearchResult)
    (h : rs.Pairwise (fun a b => a.id < b.id)) :
    rank thr lim rs = specRank thr lim rs := by
  unfold rank specRank
  rw [sortDesc_eq_lexSort _ (List.Pairwise.filter _ h)]

/-- Claim C3.  For every candidate set scored by `searchCommands` (the
scoring pass succeeding with list `rs`, drawn from the primary-key-ordered
join), the returned list is exactly the candidates with score ≥ threshold,
sorted descending by score with ties broken by ascending record id, and
truncated to the limit — i.e. `specRank`. -/
theorem searchCommands_ranking (db : Db)
    (fts : List String → Except String (List Nat)) (query : String) (qe : List ℚ)
    (lim : Nat) (thr : ℚ) (rs : List SearchResult)
    (hwf : EmbKeysSorted db)
    (hscore : scoreRows qe
      (embJoin db (candidateIdsOf db fts (extractKeywords query 3))) = .ok rs) :
    searchCommands db fts query qe lim thr = .ok (specRank thr lim rs) := by
  have hpair : rs.Pairwise (fun a b => a.id < b.id) := by
    have hj := pairwise_embJoin db (candidateIdsOf db fts (extractKeywords query 3)) hwf
    have hids := scoreRows_ids qe _ rs hscore
    have hmap := List.pairwise_map.mpr hj
    rw [← hids] at hmap
    exact List.pairwise_map.mp hmap
  simp only [searchCommands, searchFrom, hscore]
  rw [rank_eq_specRank thr lim rs hpair]

/-- Helper: the modelled square root of 1 is 1. -/
theorem ratSqrt_one : ratSqrt 1 = 1 := by
  simp [ratSqrt, Int.sqrt]

/-- Helper: a unit vector scores exactly 1 against itself. -/
theorem cosineSimilarity_unit : cosineSimilarity [1] [1] = .ok (some 1) := by
  unfold cosineSimilarity
  rw [if_neg (by simp)]
  have h1 : dotProd [1] [1] = 1 := by
    simp [dotProd]
  rw [h1, ratSqrt_one]
  simp [fpDiv]

/-- Helper: the scored candidate list of the C3 witness. -/
theorem scoreRows_c3 :
    scoreRows [1] (embJoin c3db (candidateIdsOf c3db c3fts (extractKeywords "gamma" 3))) =
      .ok c3rs := by
  have hjoin : embJoin c3db (candidateIdsOf c3db c3fts (extractKeywords "gamma" 3)) =
      [(1, sampleRow 1 "gamma" none, [1])] := by decide
  rw [hjoin]
  simp [scoreRows, scoreRow, cosineSimilarity_unit, c3rs, sampleRow]

/-- Witness for C3 at a concrete database and query. -/
theorem searchCommands_ranking_witness :
    EmbKeysSorted c3db ∧
    scoreRows [1] (embJoin c3db (candidateIdsOf c3db c3fts (extractKeywords "gamma" 3))) =
      .ok c3rs ∧
    searchCommands c3db c3fts "gamma" [1] 5 (1/2) = .ok (specRank (1/2) 5 c3rs) :=
  ⟨by simp [EmbKeysSorted, c3db], scoreRows_c3,
    searchCommands_ranking _ _ _ _ _ _ _ (by simp [EmbKeysSorted, c3db]) scoreRows_c3⟩

/-! ### Claim C10: zero vectors score NaN and are silently excluded -/

/-- Helper: a dot product with an all-zero left vector is exactly 0. -/
theorem dotProd_zero_left : ∀ (a b : List ℚ), (∀ x ∈ a, x = 0) → dotProd a b = 0 := by
  intro a
  induction a with
  | nil => intro b _; cases b <;> rfl
  | cons x xs ih =>
    intro b h
    cases b with
    | nil => rfl
    | cons y ys =>
      have hx : x = 0 := h x (List.mem_cons_self _ _)
      have hr : dotProd xs ys = 0 := ih ys (fun z hz => h z (List.mem_cons_of_mem _ hz))
      simp [dotProd, hx, hr]

/-- Helper: a dot product with an all-zero right vector is exactly 0. -/
theorem dotProd_zero_right : ∀ (a b : List ℚ), (∀ x ∈ b, x = 0) → dotProd a b = 0 := by
  intro a
  induction a with
  | nil => intro b _; cases b <;> rfl
  | cons x xs ih =>
    intro b h
    cases b with
    | nil => rfl
    | cons y ys =>
      have hy : y = 0 := h y (List.mem_cons_self _ _)
      have hr : dotProd xs ys = 0 := ih ys (fun z hz => h z (List.mem_cons_of_mem _ hz))
      simp [dotProd, hy, hr]

/-- Helper: the modelled square root of 0 is 0, as `Math.sqrt(0)` is. -/
theorem ratSqrt_zero : ratSqrt 0 = 0 := by
  simp [ratSqrt]

/-- Helper: membership in an `insDesc` insertion. -/
theorem mem_insDesc (r x : SearchResult) : ∀ (L : List SearchResult),
    x ∈ insDesc r L → x = r ∨ x ∈ L := by
  intro L
  induction L with
  | nil =>
    intro h
    simp only [insDesc] at h
    rcases List.mem_cons.mp h with h | h
    · exact Or.inl h
    · cases h
  | cons y t ih =>
    intro h
    simp only [insDesc] at h
    by_cases hb : scoreGe r.score y.score = true
    · rw [if_pos hb] at h
      rcases List.mem_cons.mp h with h | h
      · exact Or.inl h
      · exact Or.inr h
    · rw [if_neg hb] at h
      rcases List.mem_cons.mp h with h | h
      · exact Or.inr (List.mem_cons.mpr (Or.inl h))
      · rcases ih h with h | h
        · exact Or.inl h
        · exact Or.inr (List.mem_cons.mpr (Or.inr h))

/-- Helper: the code's sort permutes membership downwards. -/
theorem mem_sortDesc (x : SearchResult) : ∀ (l : List SearchResult),
    x ∈ sortDesc l → x ∈ l := by
  intro l
  induction l with
  | nil => intro h; cases h
  | cons y t ih =>
    intro h
    rcases mem_insDesc y x (sortDesc t) h with h | h
    · simp [h]
    · exact List.mem_cons.mpr (Or.inr (ih h))

/-- Helper: every ranked result passed the threshold filter, so its score is
not NaN. -/
theorem mem_rank_score_some (thr : ℚ) (lim : Nat) (rs : List SearchResult)
    (r : SearchResult) (h : r ∈ rank thr lim rs) : r.score ≠ none := by
  unfold rank at h
  have h1 : r ∈ sortDesc (rs.filter (passThreshold thr)) := List.mem_of_mem_take h
  have h2 : r ∈ rs.filter (passThreshold thr) := mem_sortDesc _ _ h1
  have h3 : passThreshold thr r = true := (List.mem_filter.mp h2).2
  intro hn
  unfold passThreshold at h3
  rw [hn] at h3
  cases h3

/-- Claim C10.  For every pair of equal-length vectors of which at least one
is all-zero, `cosineSimilarity` returns NaN (`0 / 0` through the unguarded
division) rather than raising, NaN fails the `score >= threshold` test, and
consequently a candidate carrying a NaN score is silently excluded from the
ranked output of `searchCommands`. -/
theorem cosineSimilarity_zero_vector_nan (a b : List ℚ) (thr : ℚ) (lim : Nat)
    (rs : List SearchResult) (r : SearchResult)
    (hlen : a.length = b.length)
    (hz : (∀ x ∈ a, x = 0) ∨ (∀ x ∈ b, x = 0))
    (hscore : r.score = none) :
    cosineSimilarity a b = .ok none ∧
    passThreshold thr r = false ∧
    r ∉ rank thr lim rs := by
  refine ⟨?_, ?_, ?_⟩
  · unfold cosineSimilarity
    rw [if_neg (by simp [hlen])]
    rcases hz with hz | hz
    · rw [dotProd_zero_left a b hz, dotProd_zero_left a a hz, ratSqrt_zero]
      simp [fpDiv]
    · rw [dotProd_zero_right a b hz, dotProd_zero_left b b hz, ratSqrt_zero]
      simp [fpDiv]
  · unfold passThreshold
    rw [hscore]
  · intro hmem
    exact mem_rank_score_some thr lim rs r hmem hscore

/-- Witness for C10: the all-zero vector `[0, 0]` against `[1, 2]` scores
NaN without error, and a NaN-scored candidate is dropped by the ranker. -/
theorem cosineSimilarity_zero_vector_nan_witness :
    cosineSimilarity [0, 0] [1, 2] = .ok none ∧
    passThreshold (3/10) zeroScoreResult = false ∧
    zeroScoreResult ∉ rank (3/10) 5 [zeroScoreResult] :=
  cosineSimilarity_zero_vector_nan [0, 0] [1, 2] (3/10) 5 [zeroScoreResult]
    zeroScoreResult rfl (Or.inl (by decide)) rfl
